import Mathlib

/-!
Verification development for the SwiftNote Note Repository and Query Pipeline.

The repository layer is embedded from `src/services/notes.ts`. Each operation
there is one round trip against the external record store (a Supabase table
created by the SQL in the project README: columns id, title, body, tags,
created_at, updated_at, deleted_at; the schema declares no trigger, so an
UPDATE changes exactly the columns contained in the sent patch). The store is
modelled as a list of rows, the round trip as explicit state passing, and the
four verbs of the persistence boundary (select / insert / updateWhere /
deleteWhere, filtering by id, by deleted_at null, by deleted_at not null) as
list filtering and mapping. PostgREST `.single()` succeeds exactly when one
row matches and otherwise yields the error PGRST116, which `getNote` and
`updateNote` surface as the not-found failure. Timestamps in the store are
timestamptz values, modelled as integer milliseconds. The thrown `Error`
messages are classified by the taxonomy of the specification: the
"Note ID is required" guard is the validation failure, PGRST116 the
not-found failure, and transport failures (service unreachable) are outside
the model, which describes the behaviour of a reachable service.

The query pipeline is embedded from the home screen in
`src/app/(tabs)/_layout.tsx` (`calculateTagUsage`, `sortNotes`,
`filterByDate`, `applyFiltersAndSort`). Client-side timestamps are the raw
strings returned by the store, abstracted as either a parsed millisecond
value or a malformed string on which `new Date(s).getTime()` is NaN; every
JavaScript comparison with NaN is false, and a comparator that returns NaN
is treated by the sort as a tie. `Array.prototype.sort` is stable, and a
stable sort is modelled by `List.insertionSort`. `localeCompare` for a fixed
locale is modelled by code point comparison. `String.prototype.includes` is
modelled by a substring test.
-/

namespace SwiftNote

/-! ### Repository layer: rows of the notes table -/

/-- A persisted row of the notes table. Timestamps are timestamptz values in
milliseconds; `deleted_at = none` is SQL NULL, meaning the note is active. -/
structure DbNote where
  id : String
  title : String
  body : String
  tags : Option (List String)
  created_at : Int
  updated_at : Int
  deleted_at : Option Int
deriving DecidableEq

/-- The persistence service state: the notes table. -/
abbrev Store := List DbNote

/-- JavaScript `String.prototype.trim()`: drop whitespace from both ends.
Defined by structural recursion over the character list so that concrete
inputs evaluate inside the kernel. -/
def jsTrim (s : String) : String :=
  String.mk (((s.data.dropWhile Char.isWhitespace).reverse.dropWhile
    Char.isWhitespace).reverse)

/-- JavaScript `String.prototype.toLowerCase()`, by structural recursion
over the character list. -/
def jsToLower (s : String) : String :=
  String.mk (s.data.map Char.toLower)

/-- Failure taxonomy of the repository layer, classifying the thrown
messages of `src/services/notes.ts`. -/
inductive RepoError where
  | validation
  | notFound
  | storeFailure
deriving DecidableEq

instance {ε α} [DecidableEq ε] [DecidableEq α] : DecidableEq (Except ε α) := fun a b =>
  match a, b with
  | .ok x, .ok y =>
    if h : x = y then .isTrue (by rw [h]) else .isFalse (by intro hc; cases hc; exact h rfl)
  | .error x, .error y =>
    if h : x = y then .isTrue (by rw [h]) else .isFalse (by intro hc; cases hc; exact h rfl)
  | .ok _, .error _ => .isFalse (by intro hc; cases hc)
  | .error _, .ok _ => .isFalse (by intro hc; cases hc)

/-- ORDER BY updated_at DESC: an earlier row has the later timestamp. -/
def byUpdatedDesc (a b : DbNote) : Prop := b.updated_at ≤ a.updated_at

instance : DecidableRel byUpdatedDesc := fun a b => Int.decLe _ _

instance : IsTotal DbNote byUpdatedDesc := ⟨fun a b => Int.le_total b.updated_at a.updated_at⟩

instance : IsTrans DbNote byUpdatedDesc := ⟨fun _ _ _ hab hbc => le_trans hbc hab⟩

/-- ORDER BY deleted_at DESC over rows whose deleted_at is present (the rows
`listDeletedNotes` selects); on such rows `getD` reads the actual value. -/
def byDeletedDesc (a b : DbNote) : Prop := b.deleted_at.getD 0 ≤ a.deleted_at.getD 0

instance : DecidableRel byDeletedDesc := fun a b => Int.decLe _ _

instance : IsTotal DbNote byDeletedDesc := ⟨fun a b => Int.le_total _ _⟩

instance : IsTrans DbNote byDeletedDesc := ⟨fun _ _ _ hab hbc => le_trans hbc hab⟩

/-- `listNotes` of `src/services/notes.ts`: select active rows
(`deleted_at` is null), ordered by `updated_at` descending. -/
def listNotes (store : Store) : List DbNote :=
  List.insertionSort byUpdatedDesc (store.filter fun n => n.deleted_at.isNone)

/-- `getNote` of `src/services/notes.ts`: guard the empty id, then select the
single active row with that id; zero (or several) matches is PGRST116,
surfaced as "Note not found". -/
def getNote (id : String) (store : Store) : Except RepoError DbNote :=
  if id = "" then .error .validation
  else
    match store.filter (fun n => n.id == id && n.deleted_at.isNone) with
    | [n] => .ok n
    | _ => .error .notFound

/-- `createNote` of `src/services/notes.ts`: trim title and body, reject an
empty trimmed title, insert with `deleted_at = null`; the server assigns the
id and sets both timestamps to NOW() through the column defaults. -/
def createNote (now : Int) (newId : String) (title body : String)
    (tags : Option (List String)) (store : Store) : Except RepoError (DbNote × Store) :=
  let t := jsTrim title
  let b := jsTrim body
  if t = "" then .error .validation
  else
    let n : DbNote :=
      { id := newId, title := t, body := b, tags := tags,
        created_at := now, updated_at := now, deleted_at := none }
    .ok (n, store ++ [n])

/-- The partial update object built by `updateNote`: any subset of
title, body, tags. -/
structure NotePatch where
  title : Option String := none
  body : Option String := none
  tags : Option (Option (List String)) := none
deriving DecidableEq

/-- The columns the UPDATE statement of `updateNote` writes: a provided
title or body arrives trimmed, and nothing else changes — in particular
`updated_at` is not in the payload and the schema has no update trigger. -/
def applyPatch (patch : NotePatch) (n : DbNote) : DbNote :=
  { n with
    title := (patch.title.map jsTrim).getD n.title
    body := (patch.body.map jsTrim).getD n.body
    tags := patch.tags.getD n.tags }

/-- `updateNote` of `src/services/notes.ts`: guard the empty id, reject a
provided title that trims to empty, update the active row with that id and
return it; zero (or several) matches is PGRST116, surfaced as
"Note not found". -/
def updateNote (id : String) (patch : NotePatch) (store : Store) :
    Except RepoError (DbNote × Store) :=
  if id = "" then .error .validation
  else if patch.title.map jsTrim = some "" then .error .validation
  else
    let store' := store.map fun n =>
      if n.id == id && n.deleted_at.isNone then applyPatch patch n else n
    match (store.filter fun n => n.id == id && n.deleted_at.isNone).map (applyPatch patch) with
    | [n] => .ok (n, store')
    | _ => .error .notFound

/-- `deleteNote` of `src/services/notes.ts` (soft delete): guard the empty
id, then UPDATE deleted_at to the current time on rows matching the id that
are still active. The call carries no `.single()`, so an UPDATE that matches
zero rows is not an error: the function returns successfully either way. -/
def deleteNote (now : Int) (id : String) (store : Store) : Except RepoError Store :=
  if id = "" then .error .validation
  else
    .ok (store.map fun n =>
      if n.id == id && n.deleted_at.isNone then { n with deleted_at := some now } else n)

/-- `restoreNote` of `src/services/notes.ts`: guard the empty id, then
UPDATE deleted_at to null on rows matching the id whose deleted_at is
present, returning the single updated row; zero (or several) matches makes
`.single()` fail, surfaced as the not-found failure. -/
def restoreNote (id : String) (store : Store) : Except RepoError (DbNote × Store) :=
  if id = "" then .error .validation
  else
    let store' := store.map fun n =>
      if n.id == id && n.deleted_at.isSome then { n with deleted_at := none } else n
    match (store.filter fun n => n.id == id && n.deleted_at.isSome).map
        (fun n => { n with deleted_at := none }) with
    | [n] => .ok (n, store')
    | _ => .error .notFound

/-- `listDeletedNotes` of `src/services/notes.ts`: select rows whose
deleted_at is present, ordered by `deleted_at` descending. -/
def listDeletedNotes (store : Store) : List DbNote :=
  List.insertionSort byDeletedDesc (store.filter fun n => n.deleted_at.isSome)

/-! ### Query pipeline: the client side of `src/app/(tabs)/_layout.tsx` -/

/-- A client-side timestamp string as consumed by `new Date(s)`: either it
parses to a millisecond value or it is malformed and `getTime()` is NaN. -/
inductive TimeStr where
  | valid (ms : Int)
  | malformed
deriving DecidableEq

/-- `new Date(s).getTime()`: `none` stands for NaN. -/
def TimeStr.getTime : TimeStr → Option Int
  | .valid ms => some ms
  | .malformed => none

/-- The `Note` record of `src/services/notes.ts` as the client sees it. -/
structure Note where
  id : String
  title : String
  body : String
  tags : Option (List String)
  created_at : TimeStr
  updated_at : TimeStr
  deleted_at : Option TimeStr
deriving DecidableEq

/-- `SortOption` of `src/components/FilterModal.tsx`. -/
inductive SortOption where
  | recent
  | alphabetical
  | mostEdited
  | oldest
deriving DecidableEq

/-- `DateFilter` of `src/components/FilterModal.tsx`. -/
inductive DateFilter where
  | all
  | today
  | thisWeek
  | thisMonth
deriving DecidableEq

/-- `FilterOptions` of `src/components/FilterModal.tsx`. -/
structure FilterOptions where
  sortBy : SortOption
  dateFilter : DateFilter
  selectedTags : List String
  withTagsOnly : Bool
  longNotesOnly : Bool
deriving DecidableEq

/-- One step of the record building in `calculateTagUsage`:
`tagUsage[tag] = (tagUsage[tag] || 0) + 1`. The JavaScript object is an
insertion-ordered map, modelled as an association list with unique keys. -/
def bump : List (String × Nat) → String → List (String × Nat)
  | [], t => [(t, 1)]
  | (k, v) :: rest, t => if k = t then (k, v + 1) :: rest else (k, v) :: bump rest t

/-- The body of the outer `notes.forEach` of `calculateTagUsage`: a note
with present tags bumps the counter of each tag occurrence; a note whose
tags field is null contributes nothing (`note.tags && Array.isArray(...)`). -/
def tagStep (tagUsage : List (String × Nat)) (note : Note) : List (String × Nat) :=
  match note.tags with
  | some ts => ts.foldl bump tagUsage
  | none => tagUsage

/-- `calculateTagUsage` of `src/app/(tabs)/_layout.tsx`. -/
def calculateTagUsage (notes : List Note) : List (String × Nat) :=
  notes.foldl tagStep []

/-- Reading `tagUsage[tag] || 0` from the built record. -/
def tagCount (m : List (String × Nat)) (t : String) : Nat :=
  match m with
  | [] => 0
  | (k, v) :: rest => if k = t then v else tagCount rest t

/-- 24 * 60 * 60 * 1000, the day length used by `filterByDate`. -/
def dayMs : Int := 24 * 60 * 60 * 1000

/-- The comparison `noteDate >= bound` of `filterByDate`: a malformed
`created_at` makes `noteDate` an invalid Date, and every comparison with
its NaN value is false. -/
def jsDateGE (t : TimeStr) (bound : Int) : Bool :=
  match t.getTime with
  | some ms => decide (bound ≤ ms)
  | none => false

/-- `filterByDate` of `src/app/(tabs)/_layout.tsx`. `midnight` is the value
`new Date(now.getFullYear(), now.getMonth(), now.getDate())` the source
computes: local midnight of the current day. -/
def filterByDate (midnight : Int) (dateFilter : DateFilter) (notesToFilter : List Note) :
    List Note :=
  if dateFilter = DateFilter.all then notesToFilter
  else
    notesToFilter.filter fun note =>
      match dateFilter with
      | .today => jsDateGE note.created_at midnight
      | .thisWeek => jsDateGE note.created_at (midnight - 7 * dayMs)
      | .thisMonth => jsDateGE note.created_at (midnight - 30 * dayMs)
      | .all => true

/-- A JavaScript numeric comparator result: when either operand is NaN the
subtraction is NaN, which the sort treats as a tie (0). -/
def jsCmpNum : Option Int → Option Int → Int
  | some a, some b => a - b
  | _, _ => 0

/-- The comparator of the `recent` and `mostEdited` branches of `sortNotes`:
`new Date(b.updated_at).getTime() - new Date(a.updated_at).getTime()`. -/
def cmpByUpdatedDesc (a b : Note) : Int :=
  jsCmpNum b.updated_at.getTime a.updated_at.getTime

/-- `localeCompare` for a fixed locale, modelled as code point comparison. -/
def localeCmp (s t : String) : Int :=
  match compare s t with
  | .lt => -1
  | .eq => 0
  | .gt => 1

/-- The comparator of the `alphabetical` branch of `sortNotes`. -/
def cmpByTitle (a b : Note) : Int := localeCmp a.title b.title

/-- The comparator of the `oldest` branch of `sortNotes`:
`new Date(a.created_at).getTime() - new Date(b.created_at).getTime()`. -/
def cmpByCreatedAsc (a b : Note) : Int :=
  jsCmpNum a.created_at.getTime b.created_at.getTime

/-- The order a JavaScript comparator induces: `a` may stay before `b`
exactly when the comparator does not demand a swap. -/
def sortRel (c : Note → Note → Int) (a b : Note) : Prop := c a b ≤ 0

instance (c : Note → Note → Int) : DecidableRel (sortRel c) := fun _ _ => Int.decLe _ _

/-- `sortNotes` of `src/app/(tabs)/_layout.tsx`: copy the array
(`[...notesToSort]`) and run the stable in-place sort on the copy with the
comparator the switch selects. The `recent` and `mostEdited` branches carry
the identical comparator in the source. -/
def sortNotes (notesToSort : List Note) (sortBy : SortOption) : List Note :=
  match sortBy with
  | .recent => List.insertionSort (sortRel cmpByUpdatedDesc) notesToSort
  | .alphabetical => List.insertionSort (sortRel cmpByTitle) notesToSort
  | .mostEdited => List.insertionSort (sortRel cmpByUpdatedDesc) notesToSort
  | .oldest => List.insertionSort (sortRel cmpByCreatedAsc) notesToSort

/-- `String.prototype.includes`: substring containment. -/
def strIncludes (s sub : String) : Bool :=
  s.toList.tails.any fun t => sub.toList.isPrefixOf t

/-- `applyFiltersAndSort` of `src/app/(tabs)/_layout.tsx`, with the ambient
state made explicit: the fetched notes, the search query, the filters and
local midnight of the current day. Each stage reassigns `filtered` to a
freshly built array. -/
def applyFiltersAndSort (notes : List Note) (searchQuery : String)
    (filters : FilterOptions) (midnight : Int) : List Note :=
  let afterSearch :=
    if jsTrim searchQuery ≠ "" then
      notes.filter fun note =>
        strIncludes (jsToLower note.title) (jsToLower searchQuery) ||
          (note.body != "" && strIncludes (jsToLower note.body) (jsToLower searchQuery))
    else notes
  let afterDate := filterByDate midnight filters.dateFilter afterSearch
  let afterTags :=
    if filters.selectedTags.length > 0 then
      afterDate.filter fun note =>
        match note.tags with
        | some ts => filters.selectedTags.any fun tag => ts.contains tag
        | none => false
    else afterDate
  let afterWithTags :=
    if filters.withTagsOnly then
      afterTags.filter fun note =>
        match note.tags with
        | some ts => decide (ts.length > 0)
        | none => false
    else afterTags
  let afterLong :=
    if filters.longNotesOnly then
      afterWithTags.filter fun note => note.body != "" && decide (note.body.length ≥ 100)
    else afterWithTags
  sortNotes afterLong filters.sortBy

/-- `sortNotes` with the mutation behaviour of the source made explicit.
The first component is the returned list. The second component is the
content of the caller's array after the call: the source copies the
argument (`const sorted = [...notesToSort]`) and calls the in-place
`.sort` on the copy `sorted`, never on `notesToSort`, so the caller's
array still holds its original content. -/
def sortNotesMut (notesToSort : List Note) (sortBy : SortOption) : List Note × List Note :=
  (sortNotes notesToSort sortBy, notesToSort)

/-- `applyFiltersAndSort` with the mutation behaviour of the source made
explicit, as in `sortNotesMut`. Every stage of the pipeline either passes
the previous array through unchanged or calls `.filter`, which allocates a
new array, and the final `sortNotes` sorts a copy; no stage calls a
mutating method on the caller's `notes`, so its content after the call is
its original content. -/
def applyFiltersAndSortMut (notes : List Note) (searchQuery : String)
    (filters : FilterOptions) (midnight : Int) : List Note × List Note :=
  (applyFiltersAndSort notes searchQuery filters midnight, notes)

/-! ### Helper lemmas -/

lemma tagCount_bump (m : List (String × Nat)) (t s : String) :
    tagCount (bump m t) s = tagCount m s + if s = t then 1 else 0 := by
  induction m with
  | nil =>
    by_cases h : s = t
    · subst h; simp [bump, tagCount]
    · have h' : ¬t = s := fun hh => h hh.symm
      simp [bump, tagCount, h, h']
  | cons kv rest ih =>
    obtain ⟨k, v⟩ := kv
    by_cases hkt : k = t
    · subst hkt
      by_cases hks : k = s
      · subst hks; simp [bump, tagCount]
      · have hsk : ¬s = k := fun hh => hks hh.symm
        simp [bump, tagCount, hks, hsk]
    · by_cases hks : k = s
      · subst hks
        simp [bump, tagCount, hkt, ih]
      · simp [bump, tagCount, hkt, hks, ih]

lemma tagCount_foldl_bump (ts : List String) (m : List (String × Nat)) (s : String) :
    tagCount (ts.foldl bump m) s = tagCount m s + ts.count s := by
  induction ts generalizing m with
  | nil => simp
  | cons h tl ih =>
    rw [List.foldl_cons, ih, tagCount_bump, List.count_cons]
    by_cases hh : h = s
    · subst hh; simp; omega
    · have hsh : ¬s = h := fun hs => hh hs.symm
      simp [hh, hsh]

lemma tagCount_foldl_tagStep (notes : List Note) (m : List (String × Nat)) (s : String) :
    tagCount (notes.foldl tagStep m) s =
      tagCount m s + (notes.map fun n => (n.tags.getD []).count s).sum := by
  induction notes generalizing m with
  | nil => simp
  | cons n tl ih =>
    rw [List.foldl_cons, ih]
    cases htags : n.tags with
    | none => simp [tagStep, htags]
    | some ts => simp [tagStep, htags, tagCount_foldl_bump]; omega

lemma jsDateGE_iff (t : TimeStr) (bound : Int) :
    jsDateGE t bound = true ↔ ∃ ms, t.getTime = some ms ∧ bound ≤ ms := by
  cases t <;> simp [jsDateGE, TimeStr.getTime]

/-- Which notes each date filter keeps, relative to local midnight. -/
def dateKeep (midnight : Int) (df : DateFilter) (n : Note) : Prop :=
  match df with
  | .all => True
  | .today => ∃ ms, n.created_at.getTime = some ms ∧ midnight ≤ ms
  | .thisWeek => ∃ ms, n.created_at.getTime = some ms ∧ midnight - 7 * dayMs ≤ ms
  | .thisMonth => ∃ ms, n.created_at.getTime = some ms ∧ midnight - 30 * dayMs ≤ ms

lemma mem_filterByDate_iff (midnight : Int) (df : DateFilter) (notes : List Note) (n : Note) :
    n ∈ filterByDate midnight df notes ↔ n ∈ notes ∧ dateKeep midnight df n := by
  cases df <;>
    simp [filterByDate, dateKeep, List.mem_filter, jsDateGE_iff]

lemma not_mem_filterByDate_of_malformed (midnight : Int) (df : DateFilter)
    (notes : List Note) (n : Note) (hmal : n.created_at.getTime = none)
    (hdf : df ≠ DateFilter.all) : n ∉ filterByDate midnight df notes := by
  intro hmem
  have hk := (mem_filterByDate_iff midnight df notes n).mp hmem |>.2
  cases df with
  | all => exact hdf rfl
  | today => obtain ⟨ms, hms, _⟩ := hk; rw [hmal] at hms; cases hms
  | thisWeek => obtain ⟨ms, hms, _⟩ := hk; rw [hmal] at hms; cases hms
  | thisMonth => obtain ⟨ms, hms, _⟩ := hk; rw [hmal] at hms; cases hms

lemma mem_sortNotes {x : Note} {l : List Note} {s : SortOption} :
    x ∈ sortNotes l s ↔ x ∈ l := by
  cases s <;> simp [sortNotes]

lemma mem_of_ite_filter {c : Prop} [Decidable c] {p : Note → Bool} {l : List Note} {x : Note}
    (h : x ∈ if c then l.filter p else l) : x ∈ l := by
  split at h
  · exact List.mem_of_mem_filter h
  · exact h

lemma mem_applyFiltersAndSort_filterByDate {notes : List Note} {q : String}
    {f : FilterOptions} {midnight : Int} {x : Note}
    (h : x ∈ applyFiltersAndSort notes q f midnight) :
    x ∈ filterByDate midnight f.dateFilter
      (if jsTrim q ≠ "" then
        notes.filter fun note =>
          strIncludes (jsToLower note.title) (jsToLower q) ||
            (note.body != "" && strIncludes (jsToLower note.body) (jsToLower q))
      else notes) := by
  rw [applyFiltersAndSort] at h
  exact mem_of_ite_filter (mem_of_ite_filter (mem_of_ite_filter (mem_sortNotes.mp h)))

lemma active_filter_iff (id : String) (n : DbNote) :
    (n.id == id && n.deleted_at.isNone) = true ↔ n.id = id ∧ n.deleted_at = none := by
  simp [Option.isNone_iff_eq_none]

lemma getNote_notFound_of_no_active (id : String) (store : Store) (hid : id ≠ "")
    (h : ∀ n ∈ store, ¬(n.id = id ∧ n.deleted_at = none)) :
    getNote id store = .error .notFound := by
  have hf : store.filter (fun n => n.id == id && n.deleted_at.isNone) = [] := by
    rw [List.filter_eq_nil_iff]
    intro a ha hpa
    exact h a ha ((active_filter_iff id a).mp hpa)
  rw [getNote, if_neg hid, hf]

lemma filter_eq_single_of_unique (p : DbNote → Bool) (l : List DbNote) (m : DbNote)
    (hm : m ∈ l) (hnd : (l.map DbNote.id).Nodup) (hpm : p m = true)
    (hothers : ∀ x ∈ l, x.id ≠ m.id → p x = false) :
    l.filter p = [m] := by
  induction l with
  | nil => cases hm
  | cons a t ih =>
    rw [List.map_cons, List.nodup_cons] at hnd
    rcases List.mem_cons.mp hm with rfl | hmt
    · rw [List.filter_cons_of_pos hpm]
      have ht : t.filter p = [] := by
        rw [List.filter_eq_nil_iff]
        intro x hx hpx
        have hxid : x.id ≠ m.id := by
          intro he
          exact hnd.1 (he ▸ List.mem_map.mpr ⟨x, hx, rfl⟩)
        rw [hothers x (List.mem_cons_of_mem _ hx) hxid] at hpx
        cases hpx
      rw [ht]
    · have haid : a.id ≠ m.id := by
        intro he
        exact hnd.1 (he ▸ List.mem_map.mpr ⟨m, hmt, rfl⟩)
      have hpa : p a = false := hothers a (List.mem_cons_self a t) haid
      rw [List.filter_cons_of_neg (by simp [hpa])]
      exact ih hmt hnd.2 fun x hx hxid => hothers x (List.mem_cons_of_mem _ hx) hxid

lemma map_ids_of_preserve (f : DbNote → DbNote) (hf : ∀ n, (f n).id = n.id)
    (l : List DbNote) : (l.map f).map DbNote.id = l.map DbNote.id := by
  rw [List.map_map]
  exact List.map_congr_left fun a _ => hf a

/-! ### Concrete fixtures used by counterexamples and witnesses -/

/-- The two-note collection of the tag-usage scenario of the specification. -/
def c1notes : List Note :=
  [{ id := "1", title := "t1", body := "", tags := some ["a", "a", "b"],
     created_at := .valid 0, updated_at := .valid 0, deleted_at := none },
   { id := "2", title := "t2", body := "", tags := some ["b"],
     created_at := .valid 0, updated_at := .valid 0, deleted_at := none }]

/-- A row that is already soft-deleted (deleted_at present). -/
def delNote : DbNote :=
  { id := "n1", title := "T", body := "", tags := none,
    created_at := 1, updated_at := 1, deleted_at := some 3 }

/-- An active row. -/
def exActive : DbNote :=
  { id := "n1", title := "T", body := "B", tags := none,
    created_at := 1, updated_at := 2, deleted_at := none }

/-- A note created one millisecond after midnight minus seven days, with the
clock taken at 18:00 of day 100: more than seven times 24 hours old. -/
def c6note : Note :=
  { id := "w", title := "t", body := "", tags := none,
    created_at := .valid (93 * 86400000 + 1), updated_at := .valid 0, deleted_at := none }

/-- An active row to be updated: created and last updated at time 10. -/
def c3note : DbNote :=
  { id := "n1", title := "Old title", body := "Body", tags := none,
    created_at := 10, updated_at := 10, deleted_at := none }

/-- A content patch that changes the title. -/
def c3patch : NotePatch := { title := some "New title" }

/-- A note whose created_at does not parse. -/
def mNote : Note :=
  { id := "m", title := "x", body := "", tags := none,
    created_at := .malformed, updated_at := .malformed, deleted_at := none }

/-- A well-formed note. -/
def pNote : Note :=
  { id := "p", title := "x", body := "", tags := none,
    created_at := .valid 0, updated_at := .valid 0, deleted_at := none }

/-- The initial filter state of the home screen. -/
def defaultFilters : FilterOptions :=
  { sortBy := .recent, dateFilter := .all, selectedTags := [],
    withTagsOnly := false, longNotesOnly := false }

/-- The default filters with the date filter set to today. -/
def todayFilters : FilterOptions := { defaultFilters with dateFilter := .today }

/-! ### C1 — tag usage counts -/

/-- C1, counterexample: on the collection of the specification scenario,
`calculateTagUsage` reports 2 for tag "a", not 1 — a duplicate tag inside a
single note is counted per occurrence, not once. -/
theorem calculateTagUsage_duplicate_tags_cex :
    tagCount (calculateTagUsage c1notes) "a" = 2 ∧
      tagCount (calculateTagUsage c1notes) "b" = 2 ∧
      tagCount (calculateTagUsage c1notes) "a" ≠ 1 := by
  decide

/-- C1, amended: `calculateTagUsage` maps each tag to its total number of
occurrences across the collection — each appearance in a note's tags array
adds one, so duplicates within one note count separately — and a note whose
tags field is absent contributes nothing. -/
theorem calculateTagUsage_counts_occurrences (notes : List Note) (t : String) :
    tagCount (calculateTagUsage notes) t =
      (notes.map fun n => (n.tags.getD []).count t).sum := by
  have h := tagCount_foldl_tagStep notes [] t
  simpa [calculateTagUsage, tagCount] using h

/-! ### C2 — soft delete on a non-active id -/

/-- C2, counterexample: soft-deleting an id whose only note is already
soft-deleted succeeds and leaves the store unchanged instead of failing
with the not-found error. -/
theorem deleteNote_already_deleted_cex :
    deleteNote 5 "n1" [delNote] = .ok [delNote] ∧ delNote.deleted_at ≠ none := by
  exact ⟨rfl, by decide⟩

/-- C2, amended: for a non-empty id, `deleteNote` stamps deleted_at with the
current time on exactly the active rows carrying that id, and when no
active row carries the id (already soft-deleted or nonexistent) it returns
success with the store unchanged — a no-op, not a not-found failure. -/
theorem deleteNote_noop_on_inactive (now : Int) (id : String) (store : Store)
    (hid : id ≠ "") :
    deleteNote now id store =
        .ok (store.map fun n =>
          if n.id = id ∧ n.deleted_at = none then { n with deleted_at := some now }
          else n) ∧
      ((∀ n ∈ store, ¬(n.id = id ∧ n.deleted_at = none)) →
        deleteNote now id store = .ok store) := by
  constructor
  · rw [deleteNote, if_neg hid]
    refine congrArg Except.ok (List.map_congr_left fun n _ => ?_)
    by_cases h1 : n.id = id <;> by_cases h2 : n.deleted_at = none <;>
      simp [h1, h2, Option.isNone_iff_eq_none]
  · intro hno
    rw [deleteNote, if_neg hid]
    refine congrArg Except.ok ?_
    have hpt : ∀ n ∈ store,
        (if n.id == id && n.deleted_at.isNone then { n with deleted_at := some now }
         else n) = n := by
      intro n hn
      rw [if_neg]
      exact fun hb => hno n hn ((active_filter_iff id n).mp hb)
    rw [List.map_congr_left hpt]
    simp

/-- C2, witness for the amended theorem at a concrete store. -/
theorem deleteNote_noop_on_inactive_witness :
    deleteNote 5 "n1" [delNote] = .ok [delNote] :=
  (deleteNote_noop_on_inactive 5 "n1" [delNote] (by decide)).2 (by decide)

/-! ### C3 — updated_at on content update -/

/-- C3: a successful `updateNote` that changes the title leaves updated_at
at its previous value. The UPDATE payload contains only the provided
content fields and the schema of the notes table (project README) declares
no trigger, so no successful update ever advances updated_at, against the
stated intent that it is refreshed on every content mutation (the detail
screen even shows the update timestamp only when it differs from
created_at, which under this behaviour never happens). -/
theorem updateNote_does_not_advance_updated_at :
    (updateNote "n1" c3patch [c3note]).toOption.map
        (fun r => (r.1.title, r.1.updated_at)) =
      some ("New title", 10) := by
  decide

/-! ### C4 — list and listDeleted -/

/-- C4: `listNotes` returns exactly the active rows (deleted_at absent),
ordered by updated_at descending, and `listDeletedNotes` returns exactly
the soft-deleted rows (deleted_at present), ordered by deleted_at
descending. -/
theorem listNotes_listDeletedNotes_spec :
    (∀ (store : Store) (n : DbNote),
      n ∈ listNotes store ↔ n ∈ store ∧ n.deleted_at = none) ∧
    (∀ store : Store, (listNotes store).Sorted byUpdatedDesc) ∧
    (∀ (store : Store) (n : DbNote),
      n ∈ listDeletedNotes store ↔ n ∈ store ∧ n.deleted_at ≠ none) ∧
    (∀ store : Store, (listDeletedNotes store).Sorted byDeletedDesc) := by
  refine ⟨?_, ?_, ?_, ?_⟩
  · intro store n
    simp [listNotes, List.mem_filter, Option.isNone_iff_eq_none]
  · intro store
    exact List.sorted_insertionSort byUpdatedDesc _
  · intro store n
    simp [listDeletedNotes, List.mem_filter, Option.isSome_iff_ne_none]
  · intro store
    exact List.sorted_insertionSort byDeletedDesc _

/-! ### C5 — get over the lifecycle -/

/-- C5: `getNote` rejects the empty id with the validation failure; it
fails with the not-found failure whenever no active note carries the id —
in particular immediately after `deleteNote` of that id; after a successful
`restoreNote` of the id (unique ids, as the primary key guarantees) it
succeeds again and returns the restored note; and it returns any active
note of the store when asked for its id. -/
theorem getNote_active_spec :
    (∀ store : Store, getNote "" store = .error .validation) ∧
    (∀ (id : String) (store : Store), id ≠ "" →
      (∀ n ∈ store, ¬(n.id = id ∧ n.deleted_at = none)) →
      getNote id store = .error .notFound) ∧
    (∀ (now : Int) (id : String) (store store' : Store), id ≠ "" →
      deleteNote now id store = .ok store' →
      getNote id store' = .error .notFound) ∧
    (∀ (id : String) (store : Store) (n : DbNote) (store' : Store),
      (store.map DbNote.id).Nodup → restoreNote id store = .ok (n, store') →
      getNote id store' = .ok n) ∧
    (∀ (store : Store) (n : DbNote), (store.map DbNote.id).Nodup →
      n ∈ store → n.deleted_at = none → n.id ≠ "" → getNote n.id store = .ok n) := by
  refine ⟨?_, ?_, ?_, ?_, ?_⟩
  · intro store
    rw [getNote, if_pos rfl]
  · exact fun id store hid h => getNote_notFound_of_no_active id store hid h
  · intro now id store store' hid hdel
    rw [deleteNote, if_neg hid] at hdel
    injection hdel with hdel
    subst hdel
    apply getNote_notFound_of_no_active id _ hid
    intro x hx
    rcases List.mem_map.mp hx with ⟨y, hy, rfl⟩
    by_cases hb : (y.id == id && y.deleted_at.isNone) = true
    · rw [if_pos hb]
      simp
    · rw [if_neg hb]
      exact fun hc => hb ((active_filter_iff id y).mpr hc)
  · intro id store n store' hnd hres
    by_cases hid : id = ""
    · subst hid
      rw [restoreNote, if_pos rfl] at hres
      cases hres
    · rw [restoreNote, if_neg hid] at hres
      cases hfil : store.filter (fun x => x.id == id && x.deleted_at.isSome) with
      | nil => rw [hfil] at hres; cases hres
      | cons m rest =>
        cases rest with
        | cons b tl => rw [hfil] at hres; cases hres
        | nil =>
          rw [hfil] at hres
          simp only [List.map_cons, List.map_nil] at hres
          injection hres with hres
          rw [Prod.mk.injEq] at hres
          obtain ⟨h1, h2⟩ := hres
          subst h1
          subst h2
          have hmem : m ∈ store.filter (fun x => x.id == id && x.deleted_at.isSome) := by
            rw [hfil]; exact List.mem_singleton.mpr rfl
          have hmf := List.mem_filter.mp hmem
          have hmstore := hmf.1
          have hq := hmf.2
          rw [Bool.and_eq_true] at hq
          have hqid : m.id = id := by simpa using hq.1
          have hqsome : m.deleted_at.isSome = true := hq.2
          have hgid : ∀ x : DbNote,
              ((fun x : DbNote =>
                if x.id == id && x.deleted_at.isSome then { x with deleted_at := none }
                else x) x).id = x.id := by
            intro x
            dsimp only
            split <;> rfl
          refine Eq.trans ?_ rfl
          rw [getNote, if_neg hid]
          have hfil2 : (store.map fun x =>
              if x.id == id && x.deleted_at.isSome then { x with deleted_at := none }
              else x).filter (fun x => x.id == id && x.deleted_at.isNone) =
              [{ m with deleted_at := none }] := by
            refine filter_eq_single_of_unique _ _ _ ?_ ?_ ?_ ?_
            · refine List.mem_map.mpr ⟨m, hmstore, ?_⟩
              dsimp only
              rw [if_pos (by rw [Bool.and_eq_true]; exact ⟨by simpa using hqid, hqsome⟩)]
            · rw [map_ids_of_preserve _ hgid]
              exact hnd
            · rw [Bool.and_eq_true]
              exact ⟨by simpa using hqid, rfl⟩
            · intro x hx hxid
              rcases List.mem_map.mp hx with ⟨y, hy, rfl⟩
              have hyid : y.id ≠ id := by
                intro he
                apply hxid
                rw [hgid y, he, hqid]
              rw [Bool.eq_false_iff]
              intro hb
              rw [Bool.and_eq_true] at hb
              have : ((fun x : DbNote =>
                  if x.id == id && x.deleted_at.isSome then { x with deleted_at := none }
                  else x) y).id = y.id := hgid y
              rw [this] at hb
              exact hyid (by simpa using hb.1)
          rw [hfil2]
  · intro store n hnd hmem hact hid
    have hfil : store.filter (fun x => x.id == n.id && x.deleted_at.isNone) = [n] := by
      refine filter_eq_single_of_unique _ store n hmem hnd ?_ ?_
      · rw [Bool.and_eq_true]
        exact ⟨by simp, by simp [hact]⟩
      · intro x hx hxid
        rw [Bool.eq_false_iff]
        intro hb
        rw [Bool.and_eq_true] at hb
        exact hxid (by simpa using hb.1)
    rw [getNote, if_neg hid, hfil]

/-- C5, witness: each hypothesised part of the theorem applied at a
concrete store — empty id, note not active, get after soft delete, get
after restore, and get of an active note. -/
theorem getNote_active_spec_witness :
    getNote "" ([] : Store) = .error .validation ∧
      getNote "n1" [delNote] = .error .notFound ∧
      getNote "n1" [{ exActive with deleted_at := some (5 : Int) }] = .error .notFound ∧
      getNote "n1" [{ delNote with deleted_at := none }] =
        .ok { delNote with deleted_at := none } ∧
      getNote "n1" [exActive] = .ok exActive :=
  ⟨getNote_active_spec.1 [],
   getNote_active_spec.2.1 "n1" [delNote] (by decide) (by decide),
   getNote_active_spec.2.2.1 5 "n1" [exActive] [{ exActive with deleted_at := some 5 }]
     (by decide) rfl,
   getNote_active_spec.2.2.2.1 "n1" [delNote] { delNote with deleted_at := none }
     [{ delNote with deleted_at := none }] (by decide) rfl,
   getNote_active_spec.2.2.2.2 [exActive] exActive (by decide) (by decide) rfl (by decide)⟩

/-! ### C6 — the date filter and the clock -/

/-- C6, counterexample: take the clock at 18:00 of day 100, so local
midnight is at 100 days exactly (first conjunct: midnight is consistent
with that clock). The note created one millisecond after day 93 is older
than seven times 24 hours (third conjunct), yet the thisWeek filter keeps
it (second conjunct), because the source subtracts the seven days from
local midnight, not from the current time. -/
theorem filterByDate_thisWeek_cex :
    ((100 : Int) * 86400000 ≤ 100 * 86400000 + 64800000 ∧
        (100 : Int) * 86400000 + 64800000 < 100 * 86400000 + 86400000) ∧
      filterByDate (100 * 86400000) .thisWeek [c6note] = [c6note] ∧
      (93 : Int) * 86400000 + 1 + 7 * 86400000 < 100 * 86400000 + 64800000 ∧
      c6note.created_at = .valid (93 * 86400000 + 1) :=
  ⟨by decide, by decide, by decide, rfl⟩

/-- C6, amended: relative to local midnight of the current day, the date
filter keeps exactly the notes whose created_at parses and lies at or after
midnight for today, at or after midnight minus 7 times 24 hours for
thisWeek, and at or after midnight minus 30 times 24 hours for thisMonth,
while all keeps every note. -/
theorem filterByDate_mem_spec (midnight : Int) (df : DateFilter) (notes : List Note)
    (n : Note) :
    n ∈ filterByDate midnight df notes ↔ n ∈ notes ∧ dateKeep midnight df n :=
  mem_filterByDate_iff midnight df notes n

/-! ### C7 — totality and malformed timestamps -/

/-- C7: the pipeline is a total function of its inputs; a note whose
created_at does not parse is excluded by every date-filtered run (both at
the date-filter stage and through the whole pipeline) but the all filter
passes every note through unchanged, and every note the pipeline emits
comes from the input collection. -/
theorem pipeline_total_and_malformed_spec :
    (∀ (midnight : Int) (notes : List Note), filterByDate midnight .all notes = notes) ∧
    (∀ (midnight : Int) (df : DateFilter) (notes : List Note) (n : Note),
      n.created_at.getTime = none → df ≠ .all →
      n ∉ filterByDate midnight df notes) ∧
    (∀ (notes : List Note) (q : String) (f : FilterOptions) (midnight : Int) (n : Note),
      n.created_at.getTime = none → f.dateFilter ≠ .all →
      n ∉ applyFiltersAndSort notes q f midnight) ∧
    (∀ (notes : List Note) (q : String) (f : FilterOptions) (midnight : Int) (x : Note),
      x ∈ applyFiltersAndSort notes q f midnight → x ∈ notes) := by
  refine ⟨?_, ?_, ?_, ?_⟩
  · intro midnight notes
    rw [filterByDate, if_pos rfl]
  · exact fun midnight df notes n hmal hdf =>
      not_mem_filterByDate_of_malformed midnight df notes n hmal hdf
  · intro notes q f midnight n hmal hdf hmem
    exact not_mem_filterByDate_of_malformed midnight f.dateFilter _ n hmal hdf
      (mem_applyFiltersAndSort_filterByDate hmem)
  · intro notes q f midnight x hx
    have h1 := mem_applyFiltersAndSort_filterByDate hx
    have h2 := ((mem_filterByDate_iff _ _ _ _).mp h1).1
    exact mem_of_ite_filter h2

/-- C7, witness: the hypothesised parts of the theorem at concrete inputs —
a malformed note dropped by the today filter and by the full pipeline, and
output membership reflected back into the input. -/
theorem pipeline_total_and_malformed_witness :
    mNote ∉ filterByDate 0 .today [mNote] ∧
      mNote ∉ applyFiltersAndSort [mNote] "" todayFilters 0 ∧
      pNote ∈ ([pNote] : List Note) :=
  ⟨pipeline_total_and_malformed_spec.2.1 0 .today [mNote] mNote rfl (by decide),
   pipeline_total_and_malformed_spec.2.2.1 [mNote] "" todayFilters 0 mNote rfl (by decide),
   pipeline_total_and_malformed_spec.2.2.2 [pNote] "" defaultFilters 0 pNote (by decide)⟩

/-! ### C8 — recent versus mostEdited -/

/-- C8: sorting with recent and sorting with mostEdited are the same
transformation — the two switch branches carry the identical comparator. -/
theorem sortNotes_recent_eq_mostEdited (notes : List Note) :
    sortNotes notes .recent = sortNotes notes .mostEdited := rfl

/-! ### C9 — determinism -/

/-- C9: the pipeline is a pure function of the note collection, the search
query, the filter options and the clock; two runs on the same inputs are
the same run and yield identical output. -/
theorem applyFiltersAndSort_deterministic (notes : List Note) (q : String)
    (f : FilterOptions) (midnight : Int) :
    applyFiltersAndSort notes q f midnight = applyFiltersAndSort notes q f midnight := rfl

/-! ### C10 — the input collection is left unchanged -/

/-- C10: in the mutation-aware reading of the pipeline, the caller's array
holds its original content after a `sortNotes` call (the source sorts a
spread copy) and after a full pipeline run (every stage builds a new array),
and the mutation-aware pipeline returns the same output as the pure one. -/
theorem pipeline_preserves_input (notes l : List Note) (q : String) (f : FilterOptions)
    (midnight : Int) (s : SortOption) :
    (sortNotesMut l s).2 = l ∧
      (applyFiltersAndSortMut notes q f midnight).2 = notes ∧
      (applyFiltersAndSortMut notes q f midnight).1 =
        applyFiltersAndSort notes q f midnight :=
  ⟨rfl, rfl, rfl⟩

end SwiftNote
